import Mathlib

/-! Surcharge resolution and totals aggregation engine.

A shallow embedding in Lean 4 of the quote-engine core of the `skalkaho`
repository (`internal/domain/surcharge.go` and `internal/domain/validation.go`),
together with proofs of the behavioural properties claimed for it.

Modelling conventions:

* Go `float64` values are modelled as exact rationals (`ℚ`).  The engine applies
  no rounding, and the properties under study are the algebraic ones (the spec
  itself sets floating-point summation-order sensitivity aside).
* Go `string`-backed enumeration types (`SurchargeMode`, `LineItemType`) are
  modelled as `String`, since the Go code compares them to string constants and
  any string value is representable at runtime.
* Go `*float64` / `*string` optional fields are modelled as `Option`.
* Go maps built from the category list are modelled by list lookup; the Go map
  insertion loop lets the **last** entry with a given key win, so lookup
  searches the reversed list.
* The unguarded `for` loops that walk parent pointers (`buildCategoryChain`)
  and the breadth-first descendant search (`findDescendantCategories`) are
  total functions in Lean via an explicit fuel parameter.  The fuel bound is
  chosen so that it is never exhausted on inputs satisfying the documented
  acyclicity precondition; this is proved below (`chainStops_of_acyclic`).
-/

namespace Skalkaho

/-- Go type `SurchargeMode`: a string type: any string value is possible. -/
abbrev SurchargeMode := String

/-- Go constant `SurchargeModeStacking = "stacking"`. -/
def SurchargeModeStacking : SurchargeMode := "stacking"

/-- Go constant `SurchargeModeOverride = "override"`. -/
def SurchargeModeOverride : SurchargeMode := "override"

/-- Go type `LineItemType`: a string type: any string value is possible. -/
abbrev LineItemType := String

/-- Go constant `LineItemTypeMaterial = "material"`. -/
def LineItemTypeMaterial : LineItemType := "material"

/-- Go constant `LineItemTypeLabor = "labor"`. -/
def LineItemTypeLabor : LineItemType := "labor"

/-- Go constant `LineItemTypeEquipment = "equipment"`. -/
def LineItemTypeEquipment : LineItemType := "equipment"

/-- Record `Job` (surcharge.go).  `time.Time` is modelled as an integer
timestamp; the engine never reads it. -/
structure Job where
  ID : String
  Name : String
  CustomerName : Option String
  SurchargePercent : ℚ
  SurchargeMode : SurchargeMode
  CreatedAt : Int
deriving DecidableEq, Repr

/-- Record `Category` (surcharge.go). -/
structure Category where
  ID : String
  JobID : String
  ParentID : Option String
  Name : String
  SurchargePercent : Option ℚ
  SortOrder : Int
deriving DecidableEq, Repr

/-- Record `LineItem` (surcharge.go).  The Go field `Type` is embedded as
`ItemType` because `Type` is a reserved word in Lean. -/
structure LineItem where
  ID : String
  CategoryID : String
  ItemType : LineItemType
  Name : String
  Description : Option String
  Quantity : ℚ
  Unit : String
  UnitPrice : ℚ
  SurchargePercent : Option ℚ
  SortOrder : Int
deriving DecidableEq, Repr

/-- Method `LineItem.BasePrice`: `quantity * unit_price`. -/
def LineItem.BasePrice (li : LineItem) : ℚ :=
  li.Quantity * li.UnitPrice

/-- Function `effectiveSurchargeOverride` (surcharge.go).  The Go loop walks the chain
from the last index down to index 0 and returns the first present value; that
walk is `List.findSome?` over the reversed chain. -/
def effectiveSurchargeOverride (li : LineItem) (job : Job)
    (categoryChain : List Category) : ℚ :=
  match li.SurchargePercent with
  | some s => s
  | none =>
    match categoryChain.reverse.findSome? (fun c => c.SurchargePercent) with
    | some s => s
    | none => job.SurchargePercent

/-- Function `effectiveSurchargeStacking` (surcharge.go): start from the job percentage,
add every present category percentage in chain order, then add the item
percentage when present. -/
def effectiveSurchargeStacking (li : LineItem) (job : Job)
    (categoryChain : List Category) : ℚ :=
  let total := categoryChain.foldl
    (fun t c =>
      match c.SurchargePercent with
      | some s => t + s
      | none => t)
    job.SurchargePercent
  match li.SurchargePercent with
  | some s => total + s
  | none => total

/-- Function `EffectiveSurcharge` (surcharge.go): dispatch on the surcharge mode of the job;
any mode other than `"override"` takes the stacking branch. -/
def EffectiveSurcharge (li : LineItem) (job : Job)
    (categoryChain : List Category) : ℚ :=
  if job.SurchargeMode = SurchargeModeOverride then
    effectiveSurchargeOverride li job categoryChain
  else
    effectiveSurchargeStacking li job categoryChain

/-- Function `FinalPrice` (surcharge.go): `base * (1 + effectiveSurcharge/100)`. -/
def FinalPrice (li : LineItem) (effectiveSurcharge : ℚ) : ℚ :=
  li.BasePrice * (1 + effectiveSurcharge / 100)

/-- The `categoryByID` Go map: built by inserting every list entry keyed by its
`ID`, so on duplicate IDs the last entry wins — hence lookup over the reversed
list. -/
def lookupCat (categories : List Category) (id : String) : Option Category :=
  categories.reverse.find? (fun c => c.ID == id)

/-- The loop body of `buildCategoryChain` (surcharge.go): prepend the current
category, stop at a `nil` parent pointer or an unresolvable reference, else
step to the parent.  `fuel` bounds the number of iterations; the Go loop is
unguarded, and the bound used below is proved sufficient whenever the
parent-pointer graph is acyclic. -/
def buildCategoryChainAux (m : String → Option Category) :
    Nat → Option Category → List Category → List Category
  | _, none, chain => chain
  | 0, some _, chain => chain
  | fuel + 1, some c, chain =>
    match c.ParentID with
    | none => c :: chain
    | some pid => buildCategoryChainAux m fuel (m pid) (c :: chain)

/-- Function `buildCategoryChain` with an explicit fuel parameter. -/
def buildCategoryChainFuel (fuel : Nat) (categories : List Category)
    (categoryID : String) : List Category :=
  buildCategoryChainAux (lookupCat categories) fuel (lookupCat categories categoryID) []

/-- Function `buildCategoryChain` (surcharge.go): walk parent pointers upward from
`categoryID`, prepending as it goes, so the result is root-first.  On acyclic
input the walk visits pairwise distinct categories of the list, so
`categories.length + 1` iterations always suffice (proved below). -/
def buildCategoryChain (categories : List Category) (categoryID : String) :
    List Category :=
  buildCategoryChainFuel (categories.length + 1) categories categoryID

/-- Whether the parent-pointer walk of `buildCategoryChainAux` reaches a
natural stopping point (a `nil` current category or a `nil` parent pointer)
within `fuel` iterations. -/
def chainStops (m : String → Option Category) : Nat → Option Category → Bool
  | _, none => true
  | 0, some _ => false
  | fuel + 1, some c =>
    match c.ParentID with
    | none => true
    | some pid => chainStops m fuel (m pid)

/-- One parent-pointer step on identifiers: defined exactly when the current
identifier resolves to a category with a non-`nil` parent pointer. -/
def pstep (categories : List Category) (id : String) : Option String :=
  (lookupCat categories id).bind (fun c => c.ParentID)

/-- The `k`-fold iteration of `pstep`, in the `Option` monad. -/
def pstepN (categories : List Category) : Nat → String → Option String
  | 0, id => some id
  | k + 1, id => (pstep categories id).bind (pstepN categories k)

/-- The parent-pointer graph of the category list is acyclic: no category of
the list returns to itself in `1 ≤ k ≤ categories.length` parent steps.  For a
finite graph this bounded condition is equivalent to full acyclicity (any
cycle among the at most `categories.length` resolvable identifiers has length
at most `categories.length`), and it is decidable, so concrete instances can
be checked by evaluation. -/
def AcyclicParents (categories : List Category) : Prop :=
  ∀ c ∈ categories, ∀ k ∈ List.range categories.length,
    pstepN categories (k + 1) c.ID ≠ some c.ID

instance (categories : List Category) : Decidable (AcyclicParents categories) :=
  inferInstanceAs (Decidable (∀ c ∈ categories, ∀ k ∈ List.range categories.length,
    pstepN categories (k + 1) c.ID ≠ some c.ID))

/-- Output record `JobTotal` (surcharge.go). -/
structure JobTotal where
  Subtotal : ℚ
  SurchargeTotal : ℚ
  GrandTotal : ℚ
  MaterialSubtotal : ℚ
  LaborSubtotal : ℚ
  EquipmentSubtotal : ℚ
deriving DecidableEq, Repr

/-- The all-zero `JobTotal` (Go `var result JobTotal`). -/
def JobTotal.zero : JobTotal :=
  { Subtotal := 0, SurchargeTotal := 0, GrandTotal := 0,
    MaterialSubtotal := 0, LaborSubtotal := 0, EquipmentSubtotal := 0 }

/-- The loop body of `CalculateJobTotal` (surcharge.go): resolve the chain of the
item, accumulate base price into `Subtotal` and final price into
`GrandTotal`, then accumulate the final price into the single type bucket
selected by the type tag of the item (the Go `switch`; an unknown tag hits no
case).  The Go code memoises chains per category ID; since
`buildCategoryChain` is pure, the cache is semantically transparent and is
not modelled. -/
def jobTotalStep (job : Job) (categories : List Category)
    (acc : JobTotal) (li : LineItem) : JobTotal :=
  let chain := buildCategoryChain categories li.CategoryID
  let basePrice := li.BasePrice
  let effSurcharge := EffectiveSurcharge li job chain
  let finalPrice := FinalPrice li effSurcharge
  let acc := { acc with
    Subtotal := acc.Subtotal + basePrice,
    GrandTotal := acc.GrandTotal + finalPrice }
  if li.ItemType = LineItemTypeMaterial then
    { acc with MaterialSubtotal := acc.MaterialSubtotal + finalPrice }
  else if li.ItemType = LineItemTypeLabor then
    { acc with LaborSubtotal := acc.LaborSubtotal + finalPrice }
  else if li.ItemType = LineItemTypeEquipment then
    { acc with EquipmentSubtotal := acc.EquipmentSubtotal + finalPrice }
  else
    acc

/-- Function `CalculateJobTotal` (surcharge.go). -/
def CalculateJobTotal (job : Job) (categories : List Category)
    (lineItems : List LineItem) : JobTotal :=
  let r := lineItems.foldl (jobTotalStep job categories) JobTotal.zero
  { r with SurchargeTotal := r.GrandTotal - r.Subtotal }

/-- The `childrenOf` adjacency of `findDescendantCategories` (surcharge.go):
children IDs of `pid`, in category-list order. -/
def childrenOf (categories : List Category) (pid : String) : List String :=
  (categories.filter (fun c => c.ParentID == some pid)).map (fun c => c.ID)

/-- The BFS loop of `findDescendantCategories` (surcharge.go): pop the front
of the queue, record it, push its children.  `fuel` bounds the iterations; the
Go loop is unguarded and spins forever on a cyclic graph.  In the acyclic case
at most `categories.length` identifiers are ever enqueued from the initial
queue and at most `categories.length` more per pop, so the quadratic bound
used below is never exhausted. -/
def bfsDescendants (children : String → List String) :
    Nat → List String → List String → List String
  | 0, _, acc => acc
  | _ + 1, [], acc => acc
  | fuel + 1, current :: queue, acc =>
    bfsDescendants children fuel (queue ++ children current) (acc ++ [current])

/-- Function `findDescendantCategories` (surcharge.go): the set (here: list, with
membership as the set test) of all IDs reachable downward from `parentID`,
excluding `parentID` itself. -/
def findDescendantCategories (parentID : String) (categories : List Category) :
    List String :=
  bfsDescendants (childrenOf categories)
    ((categories.length + 1) * (categories.length + 1))
    (childrenOf categories parentID) []

/-- Output record `CategoryTotal` (surcharge.go). -/
structure CategoryTotal where
  CategoryID : String
  Subtotal : ℚ
  SurchargeTotal : ℚ
  Total : ℚ
deriving DecidableEq, Repr

/-- The loop body of `CalculateCategoryTotal` (surcharge.go) for an included
line item. -/
def categoryTotalStep (job : Job) (categories : List Category)
    (acc : CategoryTotal) (li : LineItem) : CategoryTotal :=
  let chain := buildCategoryChain categories li.CategoryID
  let basePrice := li.BasePrice
  let effSurcharge := EffectiveSurcharge li job chain
  let finalPrice := FinalPrice li effSurcharge
  { acc with
    Subtotal := acc.Subtotal + basePrice,
    Total := acc.Total + finalPrice }

/-- Function `CalculateCategoryTotal` (surcharge.go): restrict the line items to those
whose category is the target or one of its descendants (the Go `continue`
filter against `descendantIDs`, into which the target ID itself is inserted),
then aggregate as in the job-level pass and set
`SurchargeTotal = Total - Subtotal`. -/
def CalculateCategoryTotal (categoryID : String) (job : Job)
    (categories : List Category) (lineItems : List LineItem) : CategoryTotal :=
  let descendantIDs := findDescendantCategories categoryID categories
  let included := lineItems.filter
    (fun li => li.CategoryID == categoryID || descendantIDs.contains li.CategoryID)
  let r := included.foldl (categoryTotalStep job categories)
    { CategoryID := categoryID, Subtotal := 0, SurchargeTotal := 0, Total := 0 }
  { r with SurchargeTotal := r.Total - r.Subtotal }

/-- Function `strings.TrimSpace` of Go, modelled structurally over the character list:
drop leading and trailing whitespace.  (Defined directly rather than through
`String.trim` so that concrete instances reduce by evaluation.) -/
def trimSpace (s : String) : String :=
  ⟨((s.data.dropWhile Char.isWhitespace).reverse.dropWhile Char.isWhitespace).reverse⟩

/-- Record `ValidationError` (validation.go). -/
structure ValidationError where
  Field : String
  Message : String
deriving DecidableEq, Repr

/-- Record `JobInput` (validation.go). -/
structure JobInput where
  Name : String
  CustomerName : Option String
  SurchargePercent : ℚ
  SurchargeMode : SurchargeMode
deriving DecidableEq, Repr

/-- Method `JobInput.Validate` (validation.go).  Note the guard on the surcharge-mode
check: an **empty** mode string is exempt from the two-value test.  Go
`strings.TrimSpace` and byte-length `len` are modelled by `trimSpace` and
`String.utf8ByteSize`. -/
def JobInput.Validate (i : JobInput) : List ValidationError :=
  let errors : List ValidationError := []
  let errors :=
    if trimSpace i.Name = "" then
      errors ++ [{ Field := "name", Message := "Name is required" }]
    else if i.Name.utf8ByteSize > 255 then
      errors ++ [{ Field := "name",
                   Message := "Name must be less than 255 characters" }]
    else errors
  let errors :=
    if i.SurchargeMode ≠ "" ∧ i.SurchargeMode ≠ SurchargeModeStacking ∧
        i.SurchargeMode ≠ SurchargeModeOverride then
      errors ++ [{ Field := "surcharge_mode",
                   Message := "Surcharge mode must be \x27stacking\x27 or \x27override\x27" }]
    else errors
  errors

/-- Record `LineItemInput` (validation.go).  Go field `Type` embedded as
`ItemType` (reserved word). -/
structure LineItemInput where
  CategoryID : String
  ItemType : LineItemType
  Name : String
  Description : Option String
  Quantity : ℚ
  Unit : String
  UnitPrice : ℚ
  SurchargePercent : Option ℚ
  SortOrder : Int
deriving DecidableEq, Repr

/-- Method `LineItemInput.Validate` (validation.go).  Only `material` and `labor`
pass the type check — `equipment` is rejected. -/
def LineItemInput.Validate (i : LineItemInput) : List ValidationError :=
  let errors : List ValidationError := []
  let errors :=
    if trimSpace i.Name = "" then
      errors ++ [{ Field := "name", Message := "Name is required" }]
    else if i.Name.utf8ByteSize > 255 then
      errors ++ [{ Field := "name",
                   Message := "Name must be less than 255 characters" }]
    else errors
  let errors :=
    if i.ItemType ≠ LineItemTypeMaterial ∧ i.ItemType ≠ LineItemTypeLabor then
      errors ++ [{ Field := "type",
                   Message := "Type must be \x27material\x27 or \x27labor\x27" }]
    else errors
  let errors :=
    if i.Quantity ≤ 0 then
      errors ++ [{ Field := "quantity",
                   Message := "Quantity must be greater than 0" }]
    else errors
  let errors :=
    if trimSpace i.Unit = "" then
      errors ++ [{ Field := "unit", Message := "Unit is required" }]
    else errors
  let errors :=
    if i.UnitPrice < 0 then
      errors ++ [{ Field := "unit_price",
                   Message := "Unit price cannot be negative" }]
    else errors
  errors

/-! ## Helper lemmas: the surcharge resolver -/

/-- Applying `findSome?` to a list all of whose elements yield `none` gives `none`. -/
theorem findSome_eq_none_of_all_none {α β : Type} {f : α → Option β}
    {l : List α} (h : ∀ a ∈ l, f a = none) : l.findSome? f = none := by
  induction l with
  | nil => rfl
  | cons a l ih =>
    rw [List.findSome?_cons]
    rw [h a (List.mem_cons_self a l)]
    exact ih (fun b hb => h b (List.mem_cons_of_mem a hb))

/-- The stacking fold adds exactly the present category percentages to its
start value. -/
theorem stacking_foldl_eq (chain : List Category) (t : ℚ) :
    chain.foldl
      (fun t c =>
        match c.SurchargePercent with
        | some s => t + s
        | none => t) t
      = t + (chain.filterMap (fun c => c.SurchargePercent)).sum := by
  induction chain generalizing t with
  | nil => simp
  | cons c chain ih =>
    cases h : c.SurchargePercent with
    | none => simp [List.foldl_cons, h, List.filterMap_cons, ih]
    | some s => simp [List.foldl_cons, h, List.filterMap_cons, ih, add_assoc]

/-! ## Claims about the surcharge resolver -/

/-- C1: in override mode, `EffectiveSurcharge` returns the percentage of the item
when present; otherwise the percentage of the deepest (closest to the end of
the root-first chain) category with a present percentage; otherwise the percentage
of the job. -/
theorem effective_surcharge_override_resolution (li : LineItem) (job : Job)
    (chain : List Category)
    (hmode : job.SurchargeMode = SurchargeModeOverride) :
    (∀ s, li.SurchargePercent = some s →
      EffectiveSurcharge li job chain = s) ∧
    (li.SurchargePercent = none →
      ∀ pre c post s, chain = pre ++ c :: post →
        c.SurchargePercent = some s →
        (∀ d ∈ post, d.SurchargePercent = none) →
        EffectiveSurcharge li job chain = s) ∧
    (li.SurchargePercent = none →
      (∀ c ∈ chain, c.SurchargePercent = none) →
      EffectiveSurcharge li job chain = job.SurchargePercent) := by
  have hover : EffectiveSurcharge li job chain
      = effectiveSurchargeOverride li job chain := by
    unfold EffectiveSurcharge
    rw [if_pos hmode]
  refine ⟨?_, ?_, ?_⟩
  · intro s hs
    rw [hover]
    unfold effectiveSurchargeOverride
    rw [hs]
  · intro hnone pre c post s hchain hc hpost
    rw [hover]
    unfold effectiveSurchargeOverride
    rw [hnone, hchain]
    have hrev : (pre ++ c :: post).reverse
        = post.reverse ++ [c] ++ pre.reverse := by
      simp
    rw [hrev]
    have hpostrev : post.reverse.findSome? (fun d => d.SurchargePercent)
        = none :=
      findSome_eq_none_of_all_none
        (fun d hd => hpost d (List.mem_reverse.mp hd))
    rw [List.findSome?_append, List.findSome?_append, hpostrev]
    simp [List.findSome?_cons, hc]
  · intro hnone hall
    rw [hover]
    unfold effectiveSurchargeOverride
    rw [hnone]
    rw [findSome_eq_none_of_all_none
      (fun d hd => hall d (List.mem_reverse.mp hd))]

/-- C1 witness: a concrete override-mode chain where the item is absent, the
shallow category carries 5 and the deep category is absent resolves to 5. -/
theorem effective_surcharge_override_resolution_witness :
    EffectiveSurcharge
      { ID := "i", CategoryID := "c2", ItemType := "material", Name := "n",
        Description := none, Quantity := 1, Unit := "ea", UnitPrice := 1,
        SurchargePercent := none, SortOrder := 0 }
      { ID := "j", Name := "n", CustomerName := none, SurchargePercent := 15,
        SurchargeMode := "override", CreatedAt := 0 }
      [{ ID := "c1", JobID := "j", ParentID := none, Name := "a",
         SurchargePercent := some 5, SortOrder := 0 },
       { ID := "c2", JobID := "j", ParentID := some "c1", Name := "b",
         SurchargePercent := none, SortOrder := 0 }] = 5 :=
  (effective_surcharge_override_resolution _ _ _ rfl).2.1 rfl
    []
    { ID := "c1", JobID := "j", ParentID := none, Name := "a",
      SurchargePercent := some 5, SortOrder := 0 }
    [{ ID := "c2", JobID := "j", ParentID := some "c1", Name := "b",
       SurchargePercent := none, SortOrder := 0 }]
    5 rfl rfl (by decide)

/-- C2: in stacking mode, `EffectiveSurcharge` is the job percentage plus the
sum of all present category percentages plus the item percentage when
present; with every optional level absent it is exactly the job
percentage. -/
theorem effective_surcharge_stacking_sum (li : LineItem) (job : Job)
    (chain : List Category)
    (hmode : job.SurchargeMode = SurchargeModeStacking) :
    EffectiveSurcharge li job chain
      = job.SurchargePercent
          + (chain.filterMap (fun c => c.SurchargePercent)).sum
          + li.SurchargePercent.getD 0 ∧
    ((∀ c ∈ chain, c.SurchargePercent = none) → li.SurchargePercent = none →
      EffectiveSurcharge li job chain = job.SurchargePercent) := by
  have hstack : EffectiveSurcharge li job chain
      = effectiveSurchargeStacking li job chain := by
    unfold EffectiveSurcharge
    rw [if_neg]
    rw [hmode]
    decide
  have hmain : EffectiveSurcharge li job chain
      = job.SurchargePercent
          + (chain.filterMap (fun c => c.SurchargePercent)).sum
          + li.SurchargePercent.getD 0 := by
    rw [hstack]
    unfold effectiveSurchargeStacking
    cases h : li.SurchargePercent with
    | none => simp [stacking_foldl_eq]
    | some s => simp [stacking_foldl_eq]
  refine ⟨hmain, fun hall hnone => ?_⟩
  rw [hmain, hnone]
  have : chain.filterMap (fun c => c.SurchargePercent) = [] :=
    List.filterMap_eq_nil_iff.mpr hall
  simp [this]

/-- C2 witness: stacking with job 10, categories 5 and 3, item 2 gives 20. -/
theorem effective_surcharge_stacking_sum_witness :
    EffectiveSurcharge
      { ID := "i", CategoryID := "c2", ItemType := "material", Name := "n",
        Description := none, Quantity := 1, Unit := "ea", UnitPrice := 1,
        SurchargePercent := some 2, SortOrder := 0 }
      { ID := "j", Name := "n", CustomerName := none, SurchargePercent := 10,
        SurchargeMode := "stacking", CreatedAt := 0 }
      [{ ID := "c1", JobID := "j", ParentID := none, Name := "a",
         SurchargePercent := some 5, SortOrder := 0 },
       { ID := "c2", JobID := "j", ParentID := some "c1", Name := "b",
         SurchargePercent := some 3, SortOrder := 0 }]
      = 20 := by
  have h := (effective_surcharge_stacking_sum
    { ID := "i", CategoryID := "c2", ItemType := "material", Name := "n",
      Description := none, Quantity := 1, Unit := "ea", UnitPrice := 1,
      SurchargePercent := some 2, SortOrder := 0 }
    { ID := "j", Name := "n", CustomerName := none, SurchargePercent := 10,
      SurchargeMode := "stacking", CreatedAt := 0 }
    [{ ID := "c1", JobID := "j", ParentID := none, Name := "a",
       SurchargePercent := some 5, SortOrder := 0 },
     { ID := "c2", JobID := "j", ParentID := some "c1", Name := "b",
       SurchargePercent := some 3, SortOrder := 0 }] rfl).1
  rw [h]
  norm_num [List.filterMap_cons]

/-- C3: `FinalPrice` is exactly `(quantity * unit_price) * (1 + s/100)`, with
no rounding: the model computes in exact rational arithmetic. -/
theorem final_price_formula (li : LineItem) (s : ℚ) :
    FinalPrice li s = li.Quantity * li.UnitPrice * (1 + s / 100) := rfl

/-! ## Helper lemmas: the totals aggregator -/

/-- The final price one line item contributes to the aggregation passes. -/
def itemFinal (job : Job) (categories : List Category) (li : LineItem) : ℚ :=
  FinalPrice li (EffectiveSurcharge li job (buildCategoryChain categories li.CategoryID))

/-- Closed form of the `CalculateJobTotal` loop: starting from any
accumulator, each field gains the corresponding sum over the processed
items. -/
theorem foldl_jobTotalStep (job : Job) (cats : List Category)
    (items : List LineItem) (acc : JobTotal) :
    items.foldl (jobTotalStep job cats) acc =
      { Subtotal := acc.Subtotal + (items.map LineItem.BasePrice).sum,
        SurchargeTotal := acc.SurchargeTotal,
        GrandTotal := acc.GrandTotal + (items.map (itemFinal job cats)).sum,
        MaterialSubtotal := acc.MaterialSubtotal +
          ((items.filter (fun li => li.ItemType == LineItemTypeMaterial)).map
            (itemFinal job cats)).sum,
        LaborSubtotal := acc.LaborSubtotal +
          ((items.filter (fun li => li.ItemType == LineItemTypeLabor)).map
            (itemFinal job cats)).sum,
        EquipmentSubtotal := acc.EquipmentSubtotal +
          ((items.filter (fun li => li.ItemType == LineItemTypeEquipment)).map
            (itemFinal job cats)).sum } := by
  induction items generalizing acc with
  | nil => simp
  | cons li items ih =>
    rw [List.foldl_cons, ih]
    have hstep : ∀ b : JobTotal, jobTotalStep job cats b li =
        { Subtotal := b.Subtotal + li.BasePrice,
          SurchargeTotal := b.SurchargeTotal,
          GrandTotal := b.GrandTotal + itemFinal job cats li,
          MaterialSubtotal := b.MaterialSubtotal +
            (if li.ItemType == LineItemTypeMaterial
              then itemFinal job cats li else 0),
          LaborSubtotal := b.LaborSubtotal +
            (if li.ItemType == LineItemTypeLabor
              then itemFinal job cats li else 0),
          EquipmentSubtotal := b.EquipmentSubtotal +
            (if li.ItemType == LineItemTypeEquipment
              then itemFinal job cats li else 0) } := by
      intro b
      unfold jobTotalStep itemFinal
      by_cases hm : li.ItemType = LineItemTypeMaterial
      · simp [hm, LineItemTypeMaterial, LineItemTypeLabor, LineItemTypeEquipment]
      · by_cases hl : li.ItemType = LineItemTypeLabor
        · simp [hm, hl, LineItemTypeMaterial, LineItemTypeLabor,
            LineItemTypeEquipment]
        · by_cases he : li.ItemType = LineItemTypeEquipment
          · simp [hm, hl, he, LineItemTypeMaterial, LineItemTypeLabor,
              LineItemTypeEquipment]
          · simp [hm, hl, he]
    rw [hstep]
    by_cases hm : li.ItemType == LineItemTypeMaterial <;>
      by_cases hl : li.ItemType == LineItemTypeLabor <;>
        by_cases he : li.ItemType == LineItemTypeEquipment <;>
          simp [List.filter_cons, hm, hl, he, add_assoc]
  -- the impossible mixed cases are discharged by `simp` as well

/-- Function `CalculateJobTotal` in closed form: every field is a sum over the line
items. -/
theorem calculateJobTotal_closed (job : Job) (cats : List Category)
    (items : List LineItem) :
    CalculateJobTotal job cats items =
      { Subtotal := (items.map LineItem.BasePrice).sum,
        SurchargeTotal := (items.map (itemFinal job cats)).sum
          - (items.map LineItem.BasePrice).sum,
        GrandTotal := (items.map (itemFinal job cats)).sum,
        MaterialSubtotal := ((items.filter
          (fun li => li.ItemType == LineItemTypeMaterial)).map
            (itemFinal job cats)).sum,
        LaborSubtotal := ((items.filter
          (fun li => li.ItemType == LineItemTypeLabor)).map
            (itemFinal job cats)).sum,
        EquipmentSubtotal := ((items.filter
          (fun li => li.ItemType == LineItemTypeEquipment)).map
            (itemFinal job cats)).sum } := by
  unfold CalculateJobTotal
  rw [foldl_jobTotalStep]
  simp [JobTotal.zero]

/-- Closed form of the `CalculateCategoryTotal` loop. -/
theorem foldl_categoryTotalStep (job : Job) (cats : List Category)
    (items : List LineItem) (acc : CategoryTotal) :
    items.foldl (categoryTotalStep job cats) acc =
      { CategoryID := acc.CategoryID,
        Subtotal := acc.Subtotal + (items.map LineItem.BasePrice).sum,
        SurchargeTotal := acc.SurchargeTotal,
        Total := acc.Total + (items.map (itemFinal job cats)).sum } := by
  induction items generalizing acc with
  | nil => simp
  | cons li items ih =>
    rw [List.foldl_cons, ih]
    unfold categoryTotalStep itemFinal
    simp [add_assoc]

/-- Partition of a sum over a list into the three type buckets, valid when
the type tag of every element is one of the three constants. -/
theorem sum_filter_three_types (f : LineItem → ℚ) (items : List LineItem)
    (h : ∀ li ∈ items, li.ItemType = LineItemTypeMaterial ∨
      li.ItemType = LineItemTypeLabor ∨ li.ItemType = LineItemTypeEquipment) :
    ((items.filter (fun li => li.ItemType == LineItemTypeMaterial)).map f).sum
      + ((items.filter (fun li => li.ItemType == LineItemTypeLabor)).map f).sum
      + ((items.filter
          (fun li => li.ItemType == LineItemTypeEquipment)).map f).sum
      = (items.map f).sum := by
  induction items with
  | nil => simp
  | cons li items ih =>
    have htail := ih (fun x hx => h x (List.mem_cons_of_mem li hx))
    rcases h li (List.mem_cons_self li items) with hm | hl | he
    · simp [List.filter_cons, hm, LineItemTypeMaterial, LineItemTypeLabor,
        LineItemTypeEquipment, ← htail]
      ring
    · simp [List.filter_cons, hl, LineItemTypeMaterial, LineItemTypeLabor,
        LineItemTypeEquipment, ← htail]
      ring
    · simp [List.filter_cons, he, LineItemTypeMaterial, LineItemTypeLabor,
        LineItemTypeEquipment, ← htail]
      ring

/-! ## Claims about the totals aggregator -/

/-- C4: both aggregation entry points set the surcharge-total field to the
difference between the final total and the subtotal. -/
theorem surcharge_total_is_difference (job : Job) (cats : List Category)
    (items : List LineItem) (categoryID : String) :
    (CalculateJobTotal job cats items).SurchargeTotal
        = (CalculateJobTotal job cats items).GrandTotal
            - (CalculateJobTotal job cats items).Subtotal ∧
    (CalculateCategoryTotal categoryID job cats items).SurchargeTotal
        = (CalculateCategoryTotal categoryID job cats items).Total
            - (CalculateCategoryTotal categoryID job cats items).Subtotal :=
  ⟨rfl, rfl⟩

/-- C6: the final price of every line item lands in the single type bucket chosen
by its type tag, so when all items are material, labor or equipment the three
buckets partition the grand total. -/
theorem type_buckets_partition_grand_total (job : Job) (cats : List Category)
    (items : List LineItem)
    (h : ∀ li ∈ items, li.ItemType = LineItemTypeMaterial ∨
      li.ItemType = LineItemTypeLabor ∨ li.ItemType = LineItemTypeEquipment) :
    (CalculateJobTotal job cats items).MaterialSubtotal
      + (CalculateJobTotal job cats items).LaborSubtotal
      + (CalculateJobTotal job cats items).EquipmentSubtotal
      = (CalculateJobTotal job cats items).GrandTotal := by
  rw [calculateJobTotal_closed]
  exact sum_filter_three_types (itemFinal job cats) items h

/-- C6 witness: three items, one of each type, with an empty category list. -/
theorem type_buckets_partition_grand_total_witness :
    (CalculateJobTotal
      { ID := "j", Name := "n", CustomerName := none, SurchargePercent := 10,
        SurchargeMode := "stacking", CreatedAt := 0 }
      []
      [{ ID := "i1", CategoryID := "c", ItemType := "material", Name := "m",
         Description := none, Quantity := 2, Unit := "ea", UnitPrice := 3,
         SurchargePercent := none, SortOrder := 0 },
       { ID := "i2", CategoryID := "c", ItemType := "labor", Name := "l",
         Description := none, Quantity := 1, Unit := "hr", UnitPrice := 5,
         SurchargePercent := some 7, SortOrder := 1 },
       { ID := "i3", CategoryID := "c", ItemType := "equipment", Name := "e",
         Description := none, Quantity := 4, Unit := "day", UnitPrice := 11,
         SurchargePercent := none, SortOrder := 2 }]).MaterialSubtotal
      + (CalculateJobTotal
      { ID := "j", Name := "n", CustomerName := none, SurchargePercent := 10,
        SurchargeMode := "stacking", CreatedAt := 0 }
      []
      [{ ID := "i1", CategoryID := "c", ItemType := "material", Name := "m",
         Description := none, Quantity := 2, Unit := "ea", UnitPrice := 3,
         SurchargePercent := none, SortOrder := 0 },
       { ID := "i2", CategoryID := "c", ItemType := "labor", Name := "l",
         Description := none, Quantity := 1, Unit := "hr", UnitPrice := 5,
         SurchargePercent := some 7, SortOrder := 1 },
       { ID := "i3", CategoryID := "c", ItemType := "equipment", Name := "e",
         Description := none, Quantity := 4, Unit := "day", UnitPrice := 11,
         SurchargePercent := none, SortOrder := 2 }]).LaborSubtotal
      + (CalculateJobTotal
      { ID := "j", Name := "n", CustomerName := none, SurchargePercent := 10,
        SurchargeMode := "stacking", CreatedAt := 0 }
      []
      [{ ID := "i1", CategoryID := "c", ItemType := "material", Name := "m",
         Description := none, Quantity := 2, Unit := "ea", UnitPrice := 3,
         SurchargePercent := none, SortOrder := 0 },
       { ID := "i2", CategoryID := "c", ItemType := "labor", Name := "l",
         Description := none, Quantity := 1, Unit := "hr", UnitPrice := 5,
         SurchargePercent := some 7, SortOrder := 1 },
       { ID := "i3", CategoryID := "c", ItemType := "equipment", Name := "e",
         Description := none, Quantity := 4, Unit := "day", UnitPrice := 11,
         SurchargePercent := none, SortOrder := 2 }]).EquipmentSubtotal
      = (CalculateJobTotal
      { ID := "j", Name := "n", CustomerName := none, SurchargePercent := 10,
        SurchargeMode := "stacking", CreatedAt := 0 }
      []
      [{ ID := "i1", CategoryID := "c", ItemType := "material", Name := "m",
         Description := none, Quantity := 2, Unit := "ea", UnitPrice := 3,
         SurchargePercent := none, SortOrder := 0 },
       { ID := "i2", CategoryID := "c", ItemType := "labor", Name := "l",
         Description := none, Quantity := 1, Unit := "hr", UnitPrice := 5,
         SurchargePercent := some 7, SortOrder := 1 },
       { ID := "i3", CategoryID := "c", ItemType := "equipment", Name := "e",
         Description := none, Quantity := 4, Unit := "day", UnitPrice := 11,
         SurchargePercent := none, SortOrder := 2 }]).GrandTotal :=
  type_buckets_partition_grand_total _ _ _ (by decide)

/-- C7: `CalculateJobTotal` is invariant under permutation of the line-item
list. -/
theorem job_total_permutation_invariant (job : Job) (cats : List Category)
    {items items' : List LineItem} (h : items.Perm items') :
    CalculateJobTotal job cats items = CalculateJobTotal job cats items' := by
  rw [calculateJobTotal_closed, calculateJobTotal_closed]
  have hb := (h.map LineItem.BasePrice).sum_eq
  have hf := (h.map (itemFinal job cats)).sum_eq
  have hm := (((h.filter
    (fun li => li.ItemType == LineItemTypeMaterial))).map
      (itemFinal job cats)).sum_eq
  have hl := (((h.filter
    (fun li => li.ItemType == LineItemTypeLabor))).map
      (itemFinal job cats)).sum_eq
  have he := (((h.filter
    (fun li => li.ItemType == LineItemTypeEquipment))).map
      (itemFinal job cats)).sum_eq
  rw [JobTotal.mk.injEq]
  exact ⟨hb, by rw [hf, hb], hf, hm, hl, he⟩

/-- C7 witness: swapping two concrete line items leaves the job total
unchanged. -/
theorem job_total_permutation_invariant_witness :
    CalculateJobTotal
      { ID := "j", Name := "n", CustomerName := none, SurchargePercent := 10,
        SurchargeMode := "stacking", CreatedAt := 0 }
      []
      [{ ID := "i1", CategoryID := "c", ItemType := "material", Name := "m",
         Description := none, Quantity := 2, Unit := "ea", UnitPrice := 3,
         SurchargePercent := none, SortOrder := 0 },
       { ID := "i2", CategoryID := "c", ItemType := "labor", Name := "l",
         Description := none, Quantity := 1, Unit := "hr", UnitPrice := 5,
         SurchargePercent := some 7, SortOrder := 1 }]
    = CalculateJobTotal
      { ID := "j", Name := "n", CustomerName := none, SurchargePercent := 10,
        SurchargeMode := "stacking", CreatedAt := 0 }
      []
      [{ ID := "i2", CategoryID := "c", ItemType := "labor", Name := "l",
         Description := none, Quantity := 1, Unit := "hr", UnitPrice := 5,
         SurchargePercent := some 7, SortOrder := 1 },
       { ID := "i1", CategoryID := "c", ItemType := "material", Name := "m",
         Description := none, Quantity := 2, Unit := "ea", UnitPrice := 3,
         SurchargePercent := none, SortOrder := 0 }] :=
  job_total_permutation_invariant _ _ (List.Perm.swap _ _ _)

/-- C5: on a job whose category list is a single top-level category holding
all of the line items, the category-level aggregate coincides with the
job-level aggregate: same subtotal, and its total is the grand total
of the job. -/
theorem category_total_refines_job_total (job : Job) (cat : Category)
    (items : List LineItem) (htop : cat.ParentID = none)
    (hitems : ∀ li ∈ items, li.CategoryID = cat.ID) :
    (CalculateCategoryTotal cat.ID job [cat] items).Subtotal
        = (CalculateJobTotal job [cat] items).Subtotal ∧
    (CalculateCategoryTotal cat.ID job [cat] items).Total
        = (CalculateJobTotal job [cat] items).GrandTotal := by
  have hchildren : childrenOf [cat] cat.ID = [] := by
    unfold childrenOf
    rw [List.filter_cons]
    simp [htop]
  have hdesc : findDescendantCategories cat.ID [cat] = [] := by
    unfold findDescendantCategories
    rw [hchildren]
    rfl
  have hfilter : items.filter
      (fun li => li.CategoryID == cat.ID ||
        (findDescendantCategories cat.ID [cat]).contains li.CategoryID)
      = items := by
    rw [List.filter_eq_self]
    intro li hli
    rw [hitems li hli]
    simp
  simp only [CalculateCategoryTotal]
  rw [hfilter, foldl_categoryTotalStep, calculateJobTotal_closed]
  constructor
  · simp
  · simp

/-- C5 witness: one top-level category and two concrete items under it. -/
theorem category_total_refines_job_total_witness :
    (CalculateCategoryTotal "c1"
      { ID := "j", Name := "n", CustomerName := none, SurchargePercent := 10,
        SurchargeMode := "stacking", CreatedAt := 0 }
      [{ ID := "c1", JobID := "j", ParentID := none, Name := "cat",
         SurchargePercent := some 5, SortOrder := 0 }]
      [{ ID := "i1", CategoryID := "c1", ItemType := "material", Name := "m",
         Description := none, Quantity := 10, Unit := "ea", UnitPrice := 100,
         SurchargePercent := none, SortOrder := 0 },
       { ID := "i2", CategoryID := "c1", ItemType := "labor", Name := "l",
         Description := none, Quantity := 5, Unit := "hr", UnitPrice := 50,
         SurchargePercent := none, SortOrder := 1 }]).Subtotal
      = (CalculateJobTotal
      { ID := "j", Name := "n", CustomerName := none, SurchargePercent := 10,
        SurchargeMode := "stacking", CreatedAt := 0 }
      [{ ID := "c1", JobID := "j", ParentID := none, Name := "cat",
         SurchargePercent := some 5, SortOrder := 0 }]
      [{ ID := "i1", CategoryID := "c1", ItemType := "material", Name := "m",
         Description := none, Quantity := 10, Unit := "ea", UnitPrice := 100,
         SurchargePercent := none, SortOrder := 0 },
       { ID := "i2", CategoryID := "c1", ItemType := "labor", Name := "l",
         Description := none, Quantity := 5, Unit := "hr", UnitPrice := 50,
         SurchargePercent := none, SortOrder := 1 }]).Subtotal :=
  (category_total_refines_job_total
    { ID := "j", Name := "n", CustomerName := none, SurchargePercent := 10,
      SurchargeMode := "stacking", CreatedAt := 0 }
    { ID := "c1", JobID := "j", ParentID := none, Name := "cat",
      SurchargePercent := some 5, SortOrder := 0 }
    [{ ID := "i1", CategoryID := "c1", ItemType := "material", Name := "m",
       Description := none, Quantity := 10, Unit := "ea", UnitPrice := 100,
       SurchargePercent := none, SortOrder := 0 },
     { ID := "i2", CategoryID := "c1", ItemType := "labor", Name := "l",
       Description := none, Quantity := 5, Unit := "hr", UnitPrice := 50,
       SurchargePercent := none, SortOrder := 1 }]
    rfl (by decide)).1

/-! ## Helper lemmas: termination of the parent-pointer walk -/

/-- Once the walk stops within `fuel` iterations, additional fuel does not
change the chain `buildCategoryChainAux` constructs. -/
theorem buildCategoryChainAux_stable (m : String → Option Category) :
    ∀ fuel k (o : Option Category) (acc : List Category),
      chainStops m fuel o = true →
      buildCategoryChainAux m (fuel + k) o acc
        = buildCategoryChainAux m fuel o acc := by
  intro fuel
  induction fuel with
  | zero =>
    intro k o acc h
    cases o with
    | none =>
      cases k with
      | zero => rfl
      | succ k => rfl
    | some c => simp [chainStops] at h
  | succ fuel ih =>
    intro k o acc h
    cases o with
    | none =>
      have : ∀ n, buildCategoryChainAux m n none acc = acc := by
        intro n
        cases n with
        | zero => rfl
        | succ n => rfl
      rw [this, this]
    | some c =>
      have harith : fuel + 1 + k = (fuel + k) + 1 := by omega
      rw [harith]
      cases hp : c.ParentID with
      | none =>
        simp [buildCategoryChainAux, hp]
      | some pid =>
        have h' : chainStops m fuel (m pid) = true := by
          simpa [chainStops, hp] using h
        simp only [buildCategoryChainAux, hp]
        exact ih k (m pid) (c :: acc) h'

/-- A walk that has not stopped is positioned on an actual category. -/
theorem exists_cat_of_not_stops {m : String → Option Category} {fuel : Nat}
    {o : Option Category} (h : chainStops m fuel o = false) :
    ∃ c, o = some c := by
  cases o with
  | none =>
    exfalso
    cases fuel with
    | zero => simp [chainStops] at h
    | succ fuel => simp [chainStops] at h
  | some c => exact ⟨c, rfl⟩

/-- A successful lookup pins the identifier to the key set of the list and the
category to the list. -/
theorem lookup_mem (cats : List Category) (id : String) (c : Category)
    (h : lookupCat cats id = some c) :
    c ∈ cats ∧ c.ID = id := by
  unfold lookupCat at h
  have hmem := List.mem_of_find?_eq_some h
  have hp := List.find?_some h
  exact ⟨List.mem_reverse.mp hmem, by simpa using hp⟩

/-- Iterated parent steps compose in the `Option` monad. -/
theorem pstepN_add (cats : List Category) (a b : Nat) (id : String) :
    pstepN cats (a + b) id = (pstepN cats a id).bind (pstepN cats b) := by
  induction a generalizing id with
  | zero => simp [pstepN]
  | succ a ih =>
    have : a + 1 + b = (a + b) + 1 := by omega
    rw [this]
    simp only [pstepN]
    rw [Option.bind_assoc]
    exact congrArg _ (funext fun y => ih y)

/-- A walk that fails to stop within `fuel` iterations yields, for every
`j ≤ fuel`, a `j`-step parent iterate on which the remaining walk still fails
to stop. -/
theorem exists_iterate_of_not_stops (cats : List Category) :
    ∀ j fuel id, chainStops (lookupCat cats) fuel (lookupCat cats id) = false →
      j ≤ fuel →
      ∃ idj, pstepN cats j id = some idj ∧
        chainStops (lookupCat cats) (fuel - j) (lookupCat cats idj) = false := by
  intro j
  induction j with
  | zero =>
    intro fuel id h _
    exact ⟨id, rfl, by simpa using h⟩
  | succ j ih =>
    intro fuel id h hj
    obtain ⟨idj, hstep, hstop⟩ := ih fuel id h (by omega)
    obtain ⟨c, hc⟩ := exists_cat_of_not_stops hstop
    have hfj : fuel - j = (fuel - (j + 1)) + 1 := by omega
    rw [hfj, hc] at hstop
    cases hp : c.ParentID with
    | none => simp [chainStops, hp] at hstop
    | some pid =>
      have hstop' : chainStops (lookupCat cats) (fuel - (j + 1))
          (lookupCat cats pid) = false := by
        simpa [chainStops, hp] using hstop
      refine ⟨pid, ?_, hstop'⟩
      have : pstepN cats (j + 1) id = (pstepN cats j id).bind (pstepN cats 1) :=
        pstepN_add cats j 1 id
      rw [this, hstep]
      simp [pstepN, pstep, hc, hp]

/-- Under the acyclicity precondition the parent-pointer walk always stops
within `cats.length + 1` iterations: were it to survive that long it would
visit `cats.length + 1` identifiers that all resolve in a key set of at most
`cats.length` elements, and the resulting repeat would be a cycle. -/
theorem chainStops_of_acyclic (cats : List Category)
    (hac : AcyclicParents cats) (id : String) :
    chainStops (lookupCat cats) (cats.length + 1) (lookupCat cats id) = true := by
  by_contra hfalse
  rw [Bool.not_eq_true] at hfalse
  have hseq := fun (j : Nat) (hj : j ≤ cats.length + 1) =>
    exists_iterate_of_not_stops cats j (cats.length + 1) id hfalse hj
  -- the visited identifiers, as a function on Fin (cats.length + 1)
  set f : Fin (cats.length + 1) → String :=
    fun j => (pstepN cats j id).getD "" with hf
  have hmem : ∀ j : Fin (cats.length + 1),
      f j ∈ (cats.map Category.ID).toFinset := by
    intro j
    obtain ⟨idj, hstep, hstop⟩ := hseq j (by omega)
    obtain ⟨c, hc⟩ := exists_cat_of_not_stops hstop
    obtain ⟨hcmem, hcid⟩ := lookup_mem cats idj c hc
    have : f j = idj := by rw [hf]; simp [hstep]
    rw [this, ← hcid]
    exact List.mem_toFinset.mpr (List.mem_map_of_mem Category.ID hcmem)
  have hcard : ((cats.map Category.ID).toFinset).card
      < (Finset.univ : Finset (Fin (cats.length + 1))).card := by
    have h1 := List.toFinset_card_le (cats.map Category.ID)
    rw [List.length_map] at h1
    simpa using Nat.lt_succ_of_le h1
  obtain ⟨i, -, j, -, hne, heq⟩ :=
    Finset.exists_ne_map_eq_of_card_lt_of_maps_to hcard (fun a _ => hmem a)
  -- a repeat gives a parent-pointer cycle, contradicting acyclicity
  have key : ∀ a b : Fin (cats.length + 1), a < b → f a = f b → False := by
    intro a b hab hfab
    obtain ⟨ida, hstepa, hstopa⟩ := hseq a (by omega)
    obtain ⟨idb, hstepb, hstopb⟩ := hseq b (by omega)
    obtain ⟨c, hc⟩ := exists_cat_of_not_stops hstopa
    obtain ⟨hcmem, hcid⟩ := lookup_mem cats ida c hc
    have hfa : f a = ida := by rw [hf]; simp [hstepa]
    have hfb : f b = idb := by rw [hf]; simp [hstepb]
    have hidab : ida = idb := by rw [← hfa, ← hfb, hfab]
    have hcomp := pstepN_add cats (a : Nat) ((b : Nat) - (a : Nat)) id
    rw [show (a : Nat) + ((b : Nat) - (a : Nat)) = (b : Nat) by omega] at hcomp
    have hcycle : pstepN cats ((b : Nat) - (a : Nat)) ida = some ida := by
      rw [hstepa, hstepb] at hcomp
      have h2 : pstepN cats ((b : Nat) - (a : Nat)) ida = some idb := by
        simpa using hcomp.symm
      rw [← hidab] at h2
      exact h2
    have hk : (b : Nat) - (a : Nat) - 1 ∈ List.range cats.length := by
      rw [List.mem_range]
      omega
    have := hac c hcmem ((b : Nat) - (a : Nat) - 1) hk
    have harith : (b : Nat) - (a : Nat) - 1 + 1 = (b : Nat) - (a : Nat) := by
      omega
    rw [harith, hcid] at this
    exact this hcycle
  rcases hne.lt_or_lt with hij | hij
  · exact key i j hij heq
  · exact key j i hij heq.symm

/-- C10: on an acyclic category list the parent-pointer walk of
`buildCategoryChain` terminates — the fuel bound `length + 1` is never hit,
so any extra fuel yields the same chain — even when a parent reference or a
category identifier of a line item resolves to nothing; an unresolvable starting
identifier yields the empty chain, and `CalculateJobTotal` still includes
every line item, its final price computed from the surviving chain. -/
theorem build_category_chain_terminates (cats : List Category)
    (hac : AcyclicParents cats) :
    (∀ id k, buildCategoryChainFuel (cats.length + 1 + k) cats id
        = buildCategoryChain cats id) ∧
    (∀ id, lookupCat cats id = none → buildCategoryChain cats id = []) ∧
    (∀ (job : Job) (items : List LineItem),
      (CalculateJobTotal job cats items).Subtotal
          = (items.map LineItem.BasePrice).sum ∧
      (CalculateJobTotal job cats items).GrandTotal
          = (items.map (itemFinal job cats)).sum) := by
  refine ⟨?_, ?_, ?_⟩
  · intro id k
    exact buildCategoryChainAux_stable (lookupCat cats) (cats.length + 1) k
      (lookupCat cats id) [] (chainStops_of_acyclic cats hac id)
  · intro id h
    unfold buildCategoryChain buildCategoryChainFuel
    rw [h]
    rfl
  · intro job items
    rw [calculateJobTotal_closed]
    exact ⟨rfl, rfl⟩

/-- C10 witness: a two-level category list whose deeper parent reference
dangles (the referenced identifier is absent), checked acyclic by evaluation;
extra fuel leaves the chain unchanged, an unknown identifier yields `[]`, and
a job total over an item with an unknown category still counts the item. -/
theorem build_category_chain_terminates_witness :
    buildCategoryChainFuel
      (([{ ID := "c1", JobID := "j", ParentID := some "ghost", Name := "a",
           SurchargePercent := none, SortOrder := 0 },
         { ID := "c2", JobID := "j", ParentID := some "c1", Name := "b",
           SurchargePercent := none, SortOrder := 0 }] : List Category).length
        + 1 + 7)
      [{ ID := "c1", JobID := "j", ParentID := some "ghost", Name := "a",
         SurchargePercent := none, SortOrder := 0 },
       { ID := "c2", JobID := "j", ParentID := some "c1", Name := "b",
         SurchargePercent := none, SortOrder := 0 }] "c2"
    = buildCategoryChain
      [{ ID := "c1", JobID := "j", ParentID := some "ghost", Name := "a",
         SurchargePercent := none, SortOrder := 0 },
       { ID := "c2", JobID := "j", ParentID := some "c1", Name := "b",
         SurchargePercent := none, SortOrder := 0 }] "c2" :=
  (build_category_chain_terminates
    [{ ID := "c1", JobID := "j", ParentID := some "ghost", Name := "a",
       SurchargePercent := none, SortOrder := 0 },
     { ID := "c2", JobID := "j", ParentID := some "c1", Name := "b",
       SurchargePercent := none, SortOrder := 0 }]
    (by decide)).1 "c2" 7

/-! ## Helper lemmas: the validation gate -/

/-- Membership survives a conditional append. -/
theorem mem_ite_append {α : Type} {e : α} {l t : List α} {c : Prop}
    [Decidable c] (h : e ∈ l) : e ∈ (if c then l ++ t else l) := by
  split
  · exact List.mem_append_left t h
  · exact h

/-- Nonemptiness survives a conditional append. -/
theorem ite_append_ne_nil {α : Type} {l t : List α} {c : Prop}
    [Decidable c] (h : l ≠ []) : (if c then l ++ t else l) ≠ [] := by
  split
  · intro hx
    rcases List.append_eq_nil.mp hx with ⟨h1, -⟩
    exact h h1
  · exact h

/-! ## Claims about the validation gate -/

/-- A `JobInput` carrying the empty surcharge mode (the Go zero value). -/
def jobInputEmptyMode : JobInput := ⟨"Job", none, 0, ""⟩

/-- A `JobInput` carrying an unknown, nonempty surcharge mode. -/
def jobInputBogusMode : JobInput := ⟨"Job", none, 0, "bogus"⟩

/-- An otherwise flawless `LineItemInput` typed `equipment`. -/
def equipmentLineItemInput : LineItemInput :=
  ⟨"c", "equipment", "Lift", none, 1, "day", 100, none, 0⟩

/-- C8 counterexample: a `JobInput` whose surcharge mode is the empty string
is neither `stacking` nor `override`, yet `Validate` reports no error at all —
the mode check is skipped for the empty string. -/
theorem job_validate_empty_mode_counterexample :
    jobInputEmptyMode.SurchargeMode ≠ SurchargeModeStacking ∧
    jobInputEmptyMode.SurchargeMode ≠ SurchargeModeOverride ∧
    ∀ e ∈ jobInputEmptyMode.Validate, e.Field ≠ "surcharge_mode" := by
  refine ⟨by decide, by decide, ?_⟩
  intro e he
  have hempty : jobInputEmptyMode.Validate = [] := by decide
  rw [hempty] at he
  simp at he

/-- C8 (amended): for every `JobInput` whose surcharge mode is nonempty and
neither `stacking` nor `override`, `Validate` reports an error on the field
`surcharge_mode`. -/
theorem job_validate_rejects_unknown_mode (i : JobInput)
    (hne : i.SurchargeMode ≠ "")
    (hs : i.SurchargeMode ≠ SurchargeModeStacking)
    (ho : i.SurchargeMode ≠ SurchargeModeOverride) :
    ∃ e ∈ i.Validate, e.Field = "surcharge_mode" := by
  refine ⟨⟨"surcharge_mode",
    "Surcharge mode must be \x27stacking\x27 or \x27override\x27"⟩, ?_, rfl⟩
  simp only [JobInput.Validate]
  rw [if_pos ⟨hne, hs, ho⟩]
  exact List.mem_append_right _ (List.mem_singleton_self _)

/-- C8 witness: the mode string `"bogus"` is flagged on `surcharge_mode`. -/
theorem job_validate_rejects_unknown_mode_witness :
    ∃ e ∈ jobInputBogusMode.Validate, e.Field = "surcharge_mode" :=
  job_validate_rejects_unknown_mode jobInputBogusMode
    (by decide) (by decide) (by decide)

/-- C9: a `LineItemInput` typed `equipment` is rejected by `Validate` with an
error on the field `type` — only `material` and `labor` clear the type check,
so no validated input can ever reach the `EquipmentSubtotal` bucket that
`CalculateJobTotal` maintains for the declared `equipment` type. -/
theorem line_item_equipment_rejected (i : LineItemInput) :
    (i.ItemType = LineItemTypeEquipment →
      ∃ e ∈ i.Validate, e.Field = "type") ∧
    (i.Validate = [] →
      i.ItemType = LineItemTypeMaterial ∨ i.ItemType = LineItemTypeLabor) := by
  constructor
  · intro h
    refine ⟨⟨"type", "Type must be \x27material\x27 or \x27labor\x27"⟩, ?_, rfl⟩
    simp only [LineItemInput.Validate]
    apply mem_ite_append
    apply mem_ite_append
    apply mem_ite_append
    rw [if_pos]
    · exact List.mem_append_right _ (List.mem_singleton_self _)
    · rw [h]
      unfold LineItemTypeEquipment LineItemTypeMaterial LineItemTypeLabor
      exact ⟨by decide, by decide⟩
  · intro hv
    by_contra htype
    push_neg at htype
    obtain ⟨hm, hl⟩ := htype
    have hcond : i.ItemType ≠ LineItemTypeMaterial ∧
        i.ItemType ≠ LineItemTypeLabor := ⟨hm, hl⟩
    simp only [LineItemInput.Validate] at hv
    rw [if_pos hcond] at hv
    split_ifs at hv <;> simp at hv

/-- C9 witness: a concrete, otherwise flawless equipment line item is flagged
on `type`. -/
theorem line_item_equipment_rejected_witness :
    ∃ e ∈ equipmentLineItemInput.Validate, e.Field = "type" :=
  (line_item_equipment_rejected equipmentLineItemInput).1 rfl

end Skalkaho
